import Mathlib

/-!
Verification of the pomodorino session/countdown engine.

The development shallowly embeds the core timer logic of
`src/pomodoro_pyqt.py` (the near-identical duplicate
`src/src/pomodoro_pyqt.py` shares the same `TimerThread` class and the
same `set_session` / `timer_ended` rotation logic; differences are
confined to widget wiring and are noted where relevant).

The background `TimerThread.run` loop is modelled as a small-step
machine: the loop body `emit tick; sleep(1); remaining -= 1` is split at
its only suspension point, giving thread phases `loopHead` (about to
test the loop condition) and `sleeping` (tick emitted, sleeping before
the decrement).  Signals emitted by the background thread towards the
main-thread `PomodoroApp` object cross threads through Qt queued
connections, so emission posts the event to a FIFO queue and delivery is
a separate step (`Op.opDeliver`) performed by the foreground event loop.
-/

set_option autoImplicit false

namespace Pomodorino

/-- Session type: the `current_session` string of `PomodoroApp`
("Work" / "Short Break" / "Long Break"). -/
inductive Session
  | work
  | shortBreak
  | longBreak
  deriving DecidableEq, Repr

/-- `self.POMODORO_DURATION = 25 * 60`. -/
def POMODORO_DURATION : Nat := 25 * 60

/-- `self.SHORT_BREAK = 5 * 60`. -/
def SHORT_BREAK : Nat := 5 * 60

/-- `self.LONG_BREAK = 15 * 60`. -/
def LONG_BREAK : Nat := 15 * 60

/-- `self.POMODOROS_BEFORE_LONG_BREAK = 4`. -/
def POMODOROS_BEFORE_LONG_BREAK : Nat := 4

/-- The duration table that `set_session`, `start_timer`, `reset_timer`
and `timer_ended` all repeat as an if/elif/else chain on
`self.current_session`. -/
def duration : Session → Nat
  | .work => POMODORO_DURATION
  | .shortBreak => SHORT_BREAK
  | .longBreak => LONG_BREAK

/-- An event posted by the background thread: `time_updated.emit(n)`
or `timer_ended.emit()`. -/
inductive TEvent
  | tick (remaining : Nat)
  | ended
  deriving DecidableEq, Repr

/-- Control point of the `TimerThread.run` loop: `loopHead` is just
before the `while` condition test, `sleeping` is between the tick
emission and the decrement, `finished` means `run` has returned. -/
inductive TPhase
  | loopHead
  | sleeping
  | finished
  deriving DecidableEq, Repr

/-- The `TimerThread` object: `duration`, `remaining`, `running`,
`should_stop`, plus the control point of its `run` method. -/
structure TimerThread where
  duration : Nat
  remaining : Nat
  running : Bool
  should_stop : Bool
  phase : TPhase
  deriving DecidableEq, Repr

/-- One background step of `TimerThread.run`.

At `loopHead` the loop condition
`self.remaining > 0 and self.running and not self.should_stop`
is tested: if it holds the thread emits `time_updated.emit(self.remaining)`
and goes to sleep; otherwise the loop exits and
`if self.remaining <= 0: self.timer_ended.emit()` runs before `run`
returns.  At `sleeping` the one-second sleep elapses and
`self.remaining -= 1` executes.  A finished thread does nothing. -/
def threadStep (t : TimerThread) : TimerThread × List TEvent :=
  match t.phase with
  | .loopHead =>
    if 0 < t.remaining ∧ t.running = true ∧ t.should_stop = false then
      ({ t with phase := .sleeping }, [TEvent.tick t.remaining])
    else
      ({ t with phase := .finished },
        if t.remaining = 0 then [TEvent.ended] else [])
  | .sleeping =>
    ({ t with remaining := t.remaining - 1, phase := .loopHead }, [])
  | .finished => (t, [])

/-- `TimerThread.pause`: `self.running = False`. -/
def TimerThread.pause (t : TimerThread) : TimerThread :=
  { t with running := false }

/-- `TimerThread.resume`: `self.running = True`. -/
def TimerThread.resume (t : TimerThread) : TimerThread :=
  { t with running := true }

/-- `TimerThread.stop`: `self.should_stop = True; self.running = False`. -/
def TimerThread.stop (t : TimerThread) : TimerThread :=
  { t with should_stop := true, running := false }

/-- Run the background thread for at most `n` steps, collecting the
events it posts, halting early once `run` has returned. -/
def runSteps : Nat → TimerThread → TimerThread × List TEvent
  | 0, t => (t, [])
  | Nat.succ n, t =>
    if t.phase = TPhase.finished then (t, [])
    else
      let p := threadStep t
      let q := runSteps n p.1
      (q.1, p.2 ++ q.2)

/-- `QThread.wait()`: block until `run` returns.  A stopped thread exits
its loop within two steps, so `remaining + 2` steps of fuel always
suffice to observe termination. -/
def TimerThread.wait (t : TimerThread) : TimerThread × List TEvent :=
  runSteps (t.remaining + 2) t

/-- A freshly constructed and started `TimerThread(duration)`: `run`
has set `self.running = True; self.remaining = self.duration` and is
about to test the loop condition for the first time. -/
def freshThread (d : Nat) : TimerThread :=
  { duration := d, remaining := d, running := true,
    should_stop := false, phase := TPhase.loopHead }

/-- The `(title, message)` pair chosen at the top of
`PomodoroApp.timer_ended`, before any rotation, from the current
(pre-rotation) session type. -/
def notificationFor (cs : Session) : String × String :=
  if cs = Session.work then
    ("Pomodoro Session Complete!",
     "Time for a break! Click here to start your break session.")
  else
    ("Break Time Over!",
     "Break session ended. Time to get back to work!")

/-- The foreground state of `PomodoroApp` relevant to the countdown
engine, together with the queue of thread-to-main signal deliveries
still pending in the Qt event loop. -/
structure SysState where
  current_session : Session
  pomodoro_count : Nat
  remaining_time : Nat
  timer_thread : Option TimerThread
  queue : List TEvent
  deriving DecidableEq, Repr

/-- `PomodoroApp.__init__`: Work session, zero completed pomodoros,
`remaining_time = POMODORO_DURATION`, no thread. -/
def initState : SysState :=
  { current_session := Session.work
    pomodoro_count := 0
    remaining_time := POMODORO_DURATION
    timer_thread := none
    queue := [] }

/-- `PomodoroApp.set_session(session_type)`: unconditionally sets
`current_session` and resets `remaining_time` to the session's full
duration (identical in both source files). -/
def set_session (t : Session) (s : SysState) : SysState :=
  { s with current_session := t, remaining_time := duration t }

/-- `PomodoroApp.update_time(seconds)`: the slot connected to
`time_updated`; sets `self.remaining_time = seconds`. -/
def update_time (seconds : Nat) (s : SysState) : SysState :=
  { s with remaining_time := seconds }

/-- `PomodoroApp.timer_ended`: the slot connected to the thread's
`timer_ended` signal.  It first chooses the notification from the
pre-rotation session type and dispatches it, then rotates the session
(incrementing `pomodoro_count` on a Work completion and applying the
`% POMODOROS_BEFORE_LONG_BREAK` test to the incremented count), and
finally re-arms `remaining_time` with the new session's duration.
Returns the new state and the dispatched notifications. -/
def timer_ended (s : SysState) : SysState × List (String × String) :=
  let notif := notificationFor s.current_session
  let next :=
    if s.current_session = Session.work then
      let c := s.pomodoro_count + 1
      if c % POMODOROS_BEFORE_LONG_BREAK = 0 then
        { s with pomodoro_count := c, current_session := Session.longBreak }
      else
        { s with pomodoro_count := c, current_session := Session.shortBreak }
    else
      { s with current_session := Session.work }
  ({ next with remaining_time := duration next.current_session }, [notif])

/-- `PomodoroApp.reset_timer`: if a thread object exists, call
`stop()` then `wait()` (events the thread posts while winding down are
still appended to the delivery queue), then reset `remaining_time` to
the full duration of the current session.  (`src/pomodoro_pyqt.py`
keeps the finished thread object; the duplicate sets it to `None` —
both leave no live thread, which is what `start_timer` tests.) -/
def reset_timer (s : SysState) : SysState :=
  match s.timer_thread with
  | none => { s with remaining_time := duration s.current_session }
  | some t =>
    let r := (t.stop).wait
    { s with timer_thread := some r.1
             queue := s.queue ++ r.2
             remaining_time := duration s.current_session }

/-- The guard of `start_timer`:
`self.timer_thread is None or self.timer_thread.isFinished()`. -/
def noLiveThread (s : SysState) : Bool :=
  match s.timer_thread with
  | none => true
  | some t => t.phase == TPhase.finished

/-- The then-branch of `start_timer`: construct `TimerThread(duration)`
for the current session's duration, connect its signals, and start it. -/
def spawnThread (s : SysState) : SysState :=
  { s with timer_thread := some (freshThread (duration s.current_session)) }

/-- `PomodoroApp.start_timer`, fuelled: if no live thread exists, spawn
a fresh one; otherwise the source executes
`self.reset_timer(); return self.start_timer()`.  One round of fuel per
recursive call; depth 2 suffices because a reset state never has a live
thread. -/
def start_timerF : Nat → SysState → SysState
  | 0, s => s
  | Nat.succ n, s =>
    if noLiveThread s then spawnThread s
    else start_timerF n (reset_timer s)

/-- `PomodoroApp.start_timer`. -/
def start_timer (s : SysState) : SysState := start_timerF 2 s

/-- `PomodoroApp.pause_timer`: guarded by
`if self.timer_thread and self.timer_thread.running`. -/
def pause_timer (s : SysState) : SysState :=
  match s.timer_thread with
  | some t => if t.running then { s with timer_thread := some t.pause } else s
  | none => s

/-- `PomodoroApp.resume_timer`: guarded by
`if self.timer_thread and not self.timer_thread.running`. -/
def resume_timer (s : SysState) : SysState :=
  match s.timer_thread with
  | some t => if t.running then s else { s with timer_thread := some t.resume }
  | none => s

/-- The lifecycle phase of the controller as the spec's state machine
sees it: Idle when no thread is alive, otherwise Running or Paused
according to the thread's `running` flag. -/
inductive Phase
  | idle
  | running
  | paused
  deriving DecidableEq, Repr

/-- Phase of a system state. -/
def phaseOf (s : SysState) : Phase :=
  match s.timer_thread with
  | none => Phase.idle
  | some t =>
    if t.phase = TPhase.finished then Phase.idle
    else if t.running then Phase.running
    else Phase.paused

/-- The operations that can interleave: the five user operations, one
background step of the thread, and delivery of one queued event by the
main event loop. -/
inductive Op
  | opStart
  | opPause
  | opResume
  | opReset
  | opSetSession (t : Session)
  | opThreadStep
  | opDeliver
  deriving DecidableEq, Repr

/-- Apply one operation to the system state. -/
def applyOp (s : SysState) (op : Op) : SysState :=
  match op with
  | .opStart => start_timer s
  | .opPause => pause_timer s
  | .opResume => resume_timer s
  | .opReset => reset_timer s
  | .opSetSession t => set_session t s
  | .opThreadStep =>
    match s.timer_thread with
    | none => s
    | some t =>
      let r := threadStep t
      { s with timer_thread := some r.1, queue := s.queue ++ r.2 }
  | .opDeliver =>
    match s.queue with
    | [] => s
    | e :: rest =>
      let s1 := { s with queue := rest }
      match e with
      | .tick n => update_time n s1
      | .ended => (timer_ended s1).1

/-- Run a sequence of operations from a state. -/
def runOps (s : SysState) (ops : List Op) : SysState := ops.foldl applyOp s

/-- The tick values emitted over a full natural run:
`[tick r, tick (r-1), ..., tick 1]`. -/
def downTicks : Nat → List TEvent
  | 0 => []
  | Nat.succ n => TEvent.tick (n + 1) :: downTicks n

/-- The events an undisturbed countdown of duration `d` emits over its
whole life (`2*d + 1` steps run it to completion). -/
def naturalTrace (d : Nat) : List TEvent :=
  (runSteps (2 * d + 1) (freshThread d)).2

/-- Schedule exhibiting a tick delivered after `reset_timer` has
stopped and joined the thread: the short-break countdown posts two
ticks, the foreground consumes one, resets, and the stale second tick
is still pending in the queue. -/
def leakSchedule : List Op :=
  [Op.opSetSession Session.shortBreak, Op.opStart, Op.opThreadStep, Op.opThreadStep,
   Op.opThreadStep, Op.opDeliver, Op.opReset]

/-- Schedule exhibiting the pause/resume failure: pause lands while the
thread sleeps; the thread performs the in-flight decrement, observes
`running == False` and exits its loop; the later resume only sets a
flag on the finished thread. -/
def pauseSchedule : List Op :=
  [Op.opStart, Op.opThreadStep, Op.opPause, Op.opThreadStep, Op.opThreadStep,
   Op.opResume]

/-- Schedule exhibiting the invariant violation: a Work countdown posts
`tick 1500`, the user switches to Short Break, and the stale tick is
then delivered, leaving `remaining_time = 1500 > 300 = duration`. -/
def staleTickSchedule : List Op :=
  [Op.opStart, Op.opThreadStep, Op.opSetSession Session.shortBreak, Op.opDeliver]

/-- The foreground state transition of an expiry delivery
(`timer_ended` with its notification output discarded). -/
def timerEndedState (s : SysState) : SysState := (timer_ended s).1

/-- The inductive invariant behind the global bound on
`remaining_time`: the displayed time, the live thread's counter and
every queued tick value are bounded by the Work duration, the largest
of the three session durations. -/
def Inv (s : SysState) : Prop :=
  s.remaining_time ≤ POMODORO_DURATION ∧
  (∀ t, s.timer_thread = some t → t.remaining ≤ POMODORO_DURATION) ∧
  (∀ n, TEvent.tick n ∈ s.queue → n ≤ POMODORO_DURATION)

/-! ## Helper lemmas about the background thread -/

lemma threadStep_finished (t : TimerThread) (h : t.phase = TPhase.finished) :
    threadStep t = (t, []) := by
  unfold threadStep
  rw [h]

lemma runSteps_finished (n : Nat) (t : TimerThread) (h : t.phase = TPhase.finished) :
    runSteps n t = (t, []) := by
  cases n with
  | zero => rfl
  | succ n => unfold runSteps; rw [if_pos h]

lemma threadStep_remaining_le (t : TimerThread) :
    (threadStep t).1.remaining ≤ t.remaining := by
  unfold threadStep
  cases t.phase <;> simp only
  · split <;> simp
  · exact Nat.sub_le _ _
  · exact Nat.le_refl _

lemma threadStep_tick_le (t : TimerThread) (n : Nat)
    (h : TEvent.tick n ∈ (threadStep t).2) : n ≤ t.remaining := by
  unfold threadStep at h
  cases hp : t.phase <;> rw [hp] at h <;> simp only at h
  · rcases h' : decide (0 < t.remaining ∧ t.running = true ∧ t.should_stop = false) with _ | _
    · rw [if_neg (of_decide_eq_false h')] at h
      split at h <;> simp_all
    · rw [if_pos (of_decide_eq_true h')] at h
      simp at h
      omega
  · simp at h
  · simp at h

lemma threadStep_ended_remaining (t : TimerThread)
    (h : TEvent.ended ∈ (threadStep t).2) : t.remaining = 0 := by
  unfold threadStep at h
  cases hp : t.phase <;> rw [hp] at h <;> simp only at h
  · rcases h' : decide (0 < t.remaining ∧ t.running = true ∧ t.should_stop = false) with _ | _
    · rw [if_neg (of_decide_eq_false h')] at h
      split at h <;> simp_all
    · rw [if_pos (of_decide_eq_true h')] at h
      simp at h
  · simp at h
  · simp at h

lemma runSteps_remaining_le (n : Nat) (t : TimerThread) :
    (runSteps n t).1.remaining ≤ t.remaining := by
  induction n generalizing t with
  | zero => exact Nat.le_refl _
  | succ n ih =>
    unfold runSteps
    split
    · exact Nat.le_refl _
    · exact Nat.le_trans (ih (threadStep t).1) (threadStep_remaining_le t)

lemma runSteps_tick_le (n : Nat) (t : TimerThread) (m : Nat)
    (h : TEvent.tick m ∈ (runSteps n t).2) : m ≤ t.remaining := by
  induction n generalizing t with
  | zero => simp [runSteps] at h
  | succ n ih =>
    unfold runSteps at h
    split at h
    · simp at h
    · simp only [List.mem_append] at h
      rcases h with h | h
      · exact threadStep_tick_le t m h
      · exact Nat.le_trans (ih (threadStep t).1 h) (threadStep_remaining_le t)

lemma threadStep_should_stop (t : TimerThread) :
    (threadStep t).1.should_stop = t.should_stop := by
  rcases t with ⟨d, r, run, st, ph⟩
  cases ph
  · by_cases hc : 0 < r ∧ run = true ∧ st = false
    · simp [threadStep, if_pos hc]
    · simp [threadStep, if_neg hc]
  · rfl
  · rfl

lemma runSteps_succ_not_finished (n : Nat) (t : TimerThread)
    (h : ¬ t.phase = TPhase.finished) :
    runSteps (n + 1) t
    = ((runSteps n (threadStep t).1).1,
       (threadStep t).2 ++ (runSteps n (threadStep t).1).2) := by
  conv_lhs => simp only [runSteps]
  rw [if_neg h]

lemma threadStep_stopped_loopHead (t : TimerThread)
    (h : t.should_stop = true) (hp : t.phase = TPhase.loopHead) :
    (threadStep t).1 = { t with phase := TPhase.finished } := by
  unfold threadStep
  rw [hp]
  rw [if_neg (by intro hc; rw [h] at hc; exact absurd hc.2.2 (by simp))]

lemma wait_finished_of_stop (t : TimerThread) (h : t.should_stop = true) :
    (t.wait).1.phase = TPhase.finished := by
  unfold TimerThread.wait
  cases hp : t.phase with
  | finished => rw [runSteps_finished _ _ hp]; exact hp
  | loopHead =>
    rw [show t.remaining + 2 = t.remaining + 1 + 1 from rfl]
    rw [runSteps_succ_not_finished _ _ (by rw [hp]; intro hc; cases hc)]
    show (runSteps (t.remaining + 1) (threadStep t).1).1.phase = TPhase.finished
    rw [threadStep_stopped_loopHead t h hp]
    rw [runSteps_finished (t.remaining + 1) { t with phase := TPhase.finished } rfl]
  | sleeping =>
    rw [show t.remaining + 2 = t.remaining + 1 + 1 from rfl]
    rw [runSteps_succ_not_finished _ _ (by rw [hp]; intro hc; cases hc)]
    show (runSteps (t.remaining + 1) (threadStep t).1).1.phase = TPhase.finished
    have hstep : (threadStep t).1
        = { t with remaining := t.remaining - 1, phase := TPhase.loopHead } := by
      unfold threadStep; rw [hp]
    rw [hstep]
    rw [runSteps_succ_not_finished _ _ (by intro hc; cases hc)]
    show (runSteps t.remaining
      (threadStep { t with remaining := t.remaining - 1, phase := TPhase.loopHead }).1).1.phase
      = TPhase.finished
    rw [threadStep_stopped_loopHead
      { t with remaining := t.remaining - 1, phase := TPhase.loopHead } h rfl]
    rw [runSteps_finished t.remaining
      { t with remaining := t.remaining - 1, phase := TPhase.finished } rfl]

lemma runSteps_natural (r : Nat) : ∀ dur : Nat,
    runSteps (2 * r + 1)
      { duration := dur, remaining := r, running := true,
        should_stop := false, phase := TPhase.loopHead }
    = ({ duration := dur, remaining := 0, running := true,
         should_stop := false, phase := TPhase.finished },
       downTicks r ++ [TEvent.ended]) := by
  induction r with
  | zero => intro dur; rfl
  | succ n ih =>
    intro dur
    rw [show 2 * (n + 1) + 1 = (2 * n + 1) + 1 + 1 from by ring]
    rw [runSteps_succ_not_finished _ _ (by intro hc; cases hc)]
    have h1 : threadStep
        { duration := dur, remaining := n + 1, running := true,
          should_stop := false, phase := TPhase.loopHead }
        = ({ duration := dur, remaining := n + 1, running := true,
             should_stop := false, phase := TPhase.sleeping },
           [TEvent.tick (n + 1)]) := by
      simp [threadStep]
    rw [h1]
    simp only
    rw [runSteps_succ_not_finished _ _ (by intro hc; cases hc)]
    have h2 : threadStep
        { duration := dur, remaining := n + 1, running := true,
          should_stop := false, phase := TPhase.sleeping }
        = ({ duration := dur, remaining := n, running := true,
             should_stop := false, phase := TPhase.loopHead }, []) := by
      simp [threadStep]
    rw [h2]
    simp only
    rw [ih dur]
    simp [downTicks]

lemma naturalTrace_eq (d : Nat) :
    naturalTrace d = downTicks d ++ [TEvent.ended] := by
  unfold naturalTrace freshThread
  rw [runSteps_natural d d]

lemma naturalThread_final (d : Nat) :
    (runSteps (2 * d + 1) (freshThread d)).1
    = { duration := d, remaining := 0, running := true,
        should_stop := false, phase := TPhase.finished } := by
  unfold freshThread
  rw [runSteps_natural d d]

lemma downTicks_no_ended (r : Nat) : TEvent.ended ∉ downTicks r := by
  induction r with
  | zero => simp [downTicks]
  | succ n ih => simp [downTicks, ih]

lemma downTicks_length (r : Nat) : (downTicks r).length = r := by
  induction r with
  | zero => rfl
  | succ n ih => simp [downTicks, ih]

/-! ## Helper lemmas about the controller -/

lemma noLiveThread_reset (s : SysState) : noLiveThread (reset_timer s) = true := by
  unfold reset_timer
  cases hs : s.timer_thread with
  | none => simp [noLiveThread]
  | some t =>
    have hw := wait_finished_of_stop t.stop rfl
    simp [noLiveThread, hw]

lemma phaseOf_idle_of_noLive (s : SysState) (h : noLiveThread s = true) :
    phaseOf s = Phase.idle := by
  cases hs : s.timer_thread with
  | none => simp [phaseOf, hs]
  | some t =>
    have ht : t.phase = TPhase.finished := by
      unfold noLiveThread at h
      rw [hs] at h
      simpa using h
    simp [phaseOf, hs, ht]

lemma noLiveThread_false_of_phase (s : SysState)
    (h : phaseOf s = Phase.running ∨ phaseOf s = Phase.paused) :
    noLiveThread s = false := by
  cases hs : s.timer_thread with
  | none =>
    unfold phaseOf at h
    rw [hs] at h
    rcases h with h | h <;> cases h
  | some t =>
    by_cases hf : t.phase = TPhase.finished
    · unfold phaseOf at h
      rw [hs] at h
      simp [hf] at h
    · unfold noLiveThread
      rw [hs]
      simpa using hf

lemma applyOp_threadStep_finished (s : SysState) (t : TimerThread)
    (h1 : s.timer_thread = some t) (h2 : t.phase = TPhase.finished) :
    applyOp s Op.opThreadStep = s := by
  rcases s with ⟨cs, pc, rt, th, q⟩
  simp only at h1
  subst h1
  unfold applyOp
  simp [threadStep_finished t h2]

lemma runOps_threadSteps_finished (s : SysState) (t : TimerThread)
    (h1 : s.timer_thread = some t) (h2 : t.phase = TPhase.finished) :
    ∀ k, runOps s (List.replicate k Op.opThreadStep) = s := by
  intro k
  induction k with
  | zero => rfl
  | succ n ih =>
    rw [List.replicate_succ]
    unfold runOps
    rw [List.foldl_cons]
    rw [applyOp_threadStep_finished s t h1 h2]
    exact ih

lemma start_timerF_spawn (n : Nat) (s : SysState) (h : noLiveThread s = true) :
    start_timerF (n + 1) s = spawnThread s := by
  unfold start_timerF
  rw [h]
  simp

lemma start_timerF_live (n : Nat) (s : SysState) (h : noLiveThread s = false) :
    start_timerF (n + 1) s = start_timerF n (reset_timer s) := by
  conv_lhs => simp only [start_timerF]
  rw [h]
  simp

lemma reset_session (s : SysState) :
    (reset_timer s).current_session = s.current_session := by
  unfold reset_timer
  cases hs : s.timer_thread <;> rfl

lemma reset_count (s : SysState) :
    (reset_timer s).pomodoro_count = s.pomodoro_count := by
  unfold reset_timer
  cases hs : s.timer_thread <;> rfl

lemma reset_remaining (s : SysState) :
    (reset_timer s).remaining_time = duration s.current_session := by
  unfold reset_timer
  cases hs : s.timer_thread <;> rfl

/-! ## Projections of the expiry handler -/

lemma timer_ended_thread (s : SysState) :
    (timer_ended s).1.timer_thread = s.timer_thread := by
  unfold timer_ended
  by_cases hw : s.current_session = Session.work
  · by_cases hm :
      (s.pomodoro_count + 1) % POMODOROS_BEFORE_LONG_BREAK = 0 <;> simp [hw, hm]
  · simp [hw]

lemma timer_ended_queue (s : SysState) :
    (timer_ended s).1.queue = s.queue := by
  unfold timer_ended
  by_cases hw : s.current_session = Session.work
  · by_cases hm :
      (s.pomodoro_count + 1) % POMODOROS_BEFORE_LONG_BREAK = 0 <;> simp [hw, hm]
  · simp [hw]

lemma timer_ended_remaining (s : SysState) :
    (timer_ended s).1.remaining_time = duration (timer_ended s).1.current_session := by
  unfold timer_ended
  by_cases hw : s.current_session = Session.work
  · by_cases hm :
      (s.pomodoro_count + 1) % POMODOROS_BEFORE_LONG_BREAK = 0 <;> simp [hw, hm]
  · simp [hw]

lemma timer_ended_count_work (s : SysState)
    (hw : s.current_session = Session.work) :
    (timer_ended s).1.pomodoro_count = s.pomodoro_count + 1 := by
  unfold timer_ended
  by_cases hm :
    (s.pomodoro_count + 1) % POMODOROS_BEFORE_LONG_BREAK = 0 <;> simp [hw, hm]

lemma timer_ended_count_break (s : SysState)
    (hb : ¬ s.current_session = Session.work) :
    (timer_ended s).1.pomodoro_count = s.pomodoro_count := by
  unfold timer_ended
  simp [hb]

lemma timer_ended_session_work (s : SysState)
    (hw : s.current_session = Session.work) :
    (timer_ended s).1.current_session =
      (if (s.pomodoro_count + 1) % POMODOROS_BEFORE_LONG_BREAK = 0
       then Session.longBreak else Session.shortBreak) := by
  unfold timer_ended
  by_cases hm :
    (s.pomodoro_count + 1) % POMODOROS_BEFORE_LONG_BREAK = 0 <;> simp [hw, hm]

lemma timer_ended_session_break (s : SysState)
    (hb : ¬ s.current_session = Session.work) :
    (timer_ended s).1.current_session = Session.work := by
  unfold timer_ended
  simp [hb]

lemma duration_le_max (c : Session) : duration c ≤ POMODORO_DURATION := by
  cases c <;> decide

/-! ## Preservation of the `Inv` bound by every operation -/

lemma Inv_init : Inv initState := by
  refine ⟨by decide, ?_, ?_⟩
  · intro t ht; cases ht
  · intro n hn; cases hn

lemma Inv_set_session (t : Session) (s : SysState) (h : Inv s) :
    Inv (set_session t s) := by
  obtain ⟨_, h2, h3⟩ := h
  exact ⟨duration_le_max t, h2, h3⟩

lemma pause_red_none (s : SysState) (hs : s.timer_thread = none) :
    pause_timer s = s := by
  simp [pause_timer, hs]

lemma pause_red_run (s : SysState) (t : TimerThread)
    (hs : s.timer_thread = some t) (hr : t.running = true) :
    pause_timer s = { s with timer_thread := some t.pause } := by
  simp [pause_timer, hs, hr]

lemma pause_red_notrun (s : SysState) (t : TimerThread)
    (hs : s.timer_thread = some t) (hr : ¬ t.running = true) :
    pause_timer s = s := by
  simp [pause_timer, hs, hr]

lemma resume_red_none (s : SysState) (hs : s.timer_thread = none) :
    resume_timer s = s := by
  simp [resume_timer, hs]

lemma resume_red_run (s : SysState) (t : TimerThread)
    (hs : s.timer_thread = some t) (hr : t.running = true) :
    resume_timer s = s := by
  simp [resume_timer, hs, hr]

lemma resume_red_notrun (s : SysState) (t : TimerThread)
    (hs : s.timer_thread = some t) (hr : ¬ t.running = true) :
    resume_timer s = { s with timer_thread := some t.resume } := by
  simp [resume_timer, hs, hr]

lemma reset_red_none (s : SysState) (hs : s.timer_thread = none) :
    reset_timer s = { s with remaining_time := duration s.current_session } := by
  simp [reset_timer, hs]

lemma reset_red_some (s : SysState) (t : TimerThread)
    (hs : s.timer_thread = some t) :
    reset_timer s =
      { s with timer_thread := some ((t.stop).wait).1
               queue := s.queue ++ ((t.stop).wait).2
               remaining_time := duration s.current_session } := by
  simp [reset_timer, hs]

lemma Inv_pause (s : SysState) (h : Inv s) : Inv (pause_timer s) := by
  obtain ⟨h1, h2, h3⟩ := h
  cases hs : s.timer_thread with
  | none => rw [pause_red_none s hs]; exact ⟨h1, h2, h3⟩
  | some t =>
    by_cases hr : t.running = true
    · rw [pause_red_run s t hs hr]
      refine ⟨h1, ?_, h3⟩
      intro t' ht'
      simp only [Option.some.injEq] at ht'
      subst ht'
      exact h2 t hs
    · rw [pause_red_notrun s t hs hr]
      exact ⟨h1, h2, h3⟩

lemma Inv_resume (s : SysState) (h : Inv s) : Inv (resume_timer s) := by
  obtain ⟨h1, h2, h3⟩ := h
  cases hs : s.timer_thread with
  | none => rw [resume_red_none s hs]; exact ⟨h1, h2, h3⟩
  | some t =>
    by_cases hr : t.running = true
    · rw [resume_red_run s t hs hr]
      exact ⟨h1, h2, h3⟩
    · rw [resume_red_notrun s t hs hr]
      refine ⟨h1, ?_, h3⟩
      intro t' ht'
      simp only [Option.some.injEq] at ht'
      subst ht'
      exact h2 t hs

lemma Inv_reset (s : SysState) (h : Inv s) : Inv (reset_timer s) := by
  obtain ⟨h1, h2, h3⟩ := h
  cases hs : s.timer_thread with
  | none =>
    rw [reset_red_none s hs]
    exact ⟨duration_le_max _, h2, h3⟩
  | some t =>
    rw [reset_red_some s t hs]
    refine ⟨duration_le_max _, ?_, ?_⟩
    · intro t' ht'
      simp only [Option.some.injEq] at ht'
      subst ht'
      exact le_trans (runSteps_remaining_le _ t.stop) (h2 t hs)
    · intro n hn
      simp only [List.mem_append] at hn
      rcases hn with hn | hn
      · exact h3 n hn
      · exact le_trans (runSteps_tick_le _ t.stop n hn) (h2 t hs)

lemma Inv_spawn (s : SysState) (h : Inv s) : Inv (spawnThread s) := by
  obtain ⟨h1, _, h3⟩ := h
  refine ⟨h1, ?_, h3⟩
  intro t' ht'
  simp only [spawnThread, Option.some.injEq] at ht'
  subst ht'
  exact duration_le_max _

lemma Inv_start (s : SysState) (h : Inv s) : Inv (start_timer s) := by
  unfold start_timer
  cases hb : noLiveThread s with
  | true =>
    rw [start_timerF_spawn 1 s hb]
    exact Inv_spawn s h
  | false =>
    rw [start_timerF_live 1 s hb]
    cases hb2 : noLiveThread (reset_timer s) with
    | true =>
      rw [start_timerF_spawn 0 _ hb2]
      exact Inv_spawn _ (Inv_reset s h)
    | false =>
      rw [start_timerF_live 0 _ hb2]
      exact Inv_reset _ (Inv_reset s h)

lemma Inv_threadStepOp (s : SysState) (h : Inv s) :
    Inv (applyOp s Op.opThreadStep) := by
  obtain ⟨h1, h2, h3⟩ := h
  unfold applyOp
  cases hs : s.timer_thread with
  | none => exact ⟨h1, h2, h3⟩
  | some t =>
    refine ⟨h1, ?_, ?_⟩
    · intro t' ht'
      simp only [Option.some.injEq] at ht'
      subst ht'
      exact le_trans (threadStep_remaining_le t) (h2 t hs)
    · intro n hn
      simp only [List.mem_append] at hn
      rcases hn with hn | hn
      · exact h3 n hn
      · exact le_trans (threadStep_tick_le t n hn) (h2 t hs)

lemma Inv_deliver (s : SysState) (h : Inv s) : Inv (applyOp s Op.opDeliver) := by
  obtain ⟨h1, h2, h3⟩ := h
  unfold applyOp
  cases hq : s.queue with
  | nil => exact ⟨h1, h2, h3⟩
  | cons e rest =>
    have h3r : ∀ n, TEvent.tick n ∈ rest → n ≤ POMODORO_DURATION := by
      intro n hn
      exact h3 n (by rw [hq]; exact List.mem_cons_of_mem e hn)
    cases e with
    | tick n =>
      refine ⟨?_, h2, h3r⟩
      exact h3 n (by rw [hq]; exact List.mem_cons_self _ _)
    | ended =>
      refine ⟨?_, ?_, ?_⟩
      · rw [timer_ended_remaining]
        exact duration_le_max _
      · intro t' ht'
        rw [timer_ended_thread] at ht'
        exact h2 t' ht'
      · intro n hn
        rw [timer_ended_queue] at hn
        exact h3r n hn

lemma Inv_applyOp (s : SysState) (op : Op) (h : Inv s) : Inv (applyOp s op) := by
  cases op with
  | opStart => exact Inv_start s h
  | opPause => exact Inv_pause s h
  | opResume => exact Inv_resume s h
  | opReset => exact Inv_reset s h
  | opSetSession t => exact Inv_set_session t s h
  | opThreadStep => exact Inv_threadStepOp s h
  | opDeliver => exact Inv_deliver s h

lemma Inv_runOps (ops : List Op) : ∀ s, Inv s → Inv (runOps s ops) := by
  induction ops with
  | nil => exact fun _ h => h
  | cons op rest ih =>
    intro s h
    unfold runOps
    rw [List.foldl_cons]
    exact ih (applyOp s op) (Inv_applyOp s op h)

/-! ## The pomodoro counter under each operation -/

lemma spawn_count (s : SysState) :
    (spawnThread s).pomodoro_count = s.pomodoro_count := rfl

lemma start_count (s : SysState) :
    (start_timer s).pomodoro_count = s.pomodoro_count := by
  unfold start_timer
  cases hb : noLiveThread s with
  | true => rw [start_timerF_spawn 1 s hb, spawn_count]
  | false =>
    rw [start_timerF_live 1 s hb]
    cases hb2 : noLiveThread (reset_timer s) with
    | true => rw [start_timerF_spawn 0 _ hb2, spawn_count, reset_count]
    | false =>
      rw [start_timerF_live 0 _ hb2]
      show (reset_timer (reset_timer s)).pomodoro_count = s.pomodoro_count
      rw [reset_count, reset_count]

lemma pause_count (s : SysState) :
    (pause_timer s).pomodoro_count = s.pomodoro_count := by
  cases hs : s.timer_thread with
  | none => rw [pause_red_none s hs]
  | some t =>
    by_cases hr : t.running = true
    · rw [pause_red_run s t hs hr]
    · rw [pause_red_notrun s t hs hr]

lemma resume_count (s : SysState) :
    (resume_timer s).pomodoro_count = s.pomodoro_count := by
  cases hs : s.timer_thread with
  | none => rw [resume_red_none s hs]
  | some t =>
    by_cases hr : t.running = true
    · rw [resume_red_run s t hs hr]
    · rw [resume_red_notrun s t hs hr]

lemma applyOp_count_le (s : SysState) (op : Op) :
    s.pomodoro_count ≤ (applyOp s op).pomodoro_count := by
  cases op with
  | opStart => exact le_of_eq (start_count s).symm
  | opPause => exact le_of_eq (pause_count s).symm
  | opResume => exact le_of_eq (resume_count s).symm
  | opReset => exact le_of_eq (reset_count s).symm
  | opSetSession t => exact le_of_eq rfl
  | opThreadStep =>
    unfold applyOp
    cases hs : s.timer_thread with
    | none => exact le_refl _
    | some t => exact le_refl _
  | opDeliver =>
    unfold applyOp
    cases hq : s.queue with
    | nil => exact le_refl _
    | cons e rest =>
      cases e with
      | tick n => exact le_refl _
      | ended =>
        by_cases hw :
          ({ s with queue := rest } : SysState).current_session = Session.work
        · rw [timer_ended_count_work _ hw]
          exact Nat.le_succ _
        · rw [timer_ended_count_break _ hw]

lemma runOps_count_le (ops : List Op) :
    ∀ s : SysState, s.pomodoro_count ≤ (runOps s ops).pomodoro_count := by
  induction ops with
  | nil => exact fun _ => le_refl _
  | cons op rest ih =>
    intro s
    unfold runOps
    rw [List.foldl_cons]
    exact le_trans (applyOp_count_le s op) (ih (applyOp s op))

/-! ## Claim theorems -/

/-- Claim C1: an expiry delivered while the session is Work increments
`pomodoro_count` by 1 and then routes to Long Break exactly when the
incremented count is divisible by `POMODOROS_BEFORE_LONG_BREAK`,
otherwise to Short Break; an expiry delivered during a break routes
back to Work without touching the count; in all cases `remaining_time`
is re-armed to the new session's duration.  Starting from the fresh
controller, alternating Work and break expiries yield breaks Short,
Short, Short, Long, with `pomodoro_count = 4` after the fourth Work
expiry. -/
theorem C1_rotation (s : SysState) :
    (s.current_session = Session.work →
      (timer_ended s).1.pomodoro_count = s.pomodoro_count + 1 ∧
      (timer_ended s).1.current_session =
        (if (s.pomodoro_count + 1) % POMODOROS_BEFORE_LONG_BREAK = 0
         then Session.longBreak else Session.shortBreak)) ∧
    (¬ s.current_session = Session.work →
      (timer_ended s).1.current_session = Session.work ∧
      (timer_ended s).1.pomodoro_count = s.pomodoro_count) ∧
    (timer_ended s).1.remaining_time = duration (timer_ended s).1.current_session ∧
    (timerEndedState^[1] initState).current_session = Session.shortBreak ∧
    (timerEndedState^[3] initState).current_session = Session.shortBreak ∧
    (timerEndedState^[5] initState).current_session = Session.shortBreak ∧
    (timerEndedState^[7] initState).current_session = Session.longBreak ∧
    (timerEndedState^[7] initState).pomodoro_count = 4 := by
  refine ⟨fun hw => ⟨timer_ended_count_work s hw, timer_ended_session_work s hw⟩,
    fun hb => ⟨timer_ended_session_break s hb, timer_ended_count_break s hb⟩,
    timer_ended_remaining s, by decide, by decide, by decide, by decide, by decide⟩

/-- Claim C1 witness: the general rotation law evaluated at the fresh
controller (a Work expiry) and at a short-break state (a break
expiry). -/
theorem C1_rotation_witness :
    ((timer_ended initState).1.pomodoro_count = initState.pomodoro_count + 1 ∧
      (timer_ended initState).1.current_session =
        (if (initState.pomodoro_count + 1) % POMODOROS_BEFORE_LONG_BREAK = 0
         then Session.longBreak else Session.shortBreak)) ∧
    ((timer_ended (set_session Session.shortBreak initState)).1.current_session
        = Session.work ∧
      (timer_ended (set_session Session.shortBreak initState)).1.pomodoro_count
        = (set_session Session.shortBreak initState).pomodoro_count) :=
  ⟨(C1_rotation initState).1 rfl,
   (C1_rotation (set_session Session.shortBreak initState)).2.1 (by decide)⟩

/-- Claim C2 counterexample: a tick posted by the thread before
`reset_timer` stopped and joined it is still pending in the delivery
queue after `reset_timer` returns (the controller is Idle, the thread
terminated and joined), and delivering it afterwards overwrites the
freshly reset `remaining_time` with the stale value 299. -/
theorem C2_stop_leak_cex :
    phaseOf (runOps initState leakSchedule) = Phase.idle ∧
    (runOps initState leakSchedule).remaining_time = SHORT_BREAK ∧
    (runOps initState leakSchedule).queue = [TEvent.tick 299] ∧
    (applyOp (runOps initState leakSchedule) Op.opDeliver).remaining_time = 299 := by
  decide

/-- Claim C2 amended: over a full undisturbed run the `ended` event is
emitted exactly once and the counter has reached 0; a finished thread
emits nothing ever again; `ended` is only emitted when `remaining = 0`;
and `stop()` followed by `wait()` always observes a finished thread.
(Events already posted to the delivery queue before termination may
still be delivered after the join — see the counterexample.) -/
theorem C2_expiry_semantics :
    (∀ d : Nat, 0 < d →
      (naturalTrace d).count TEvent.ended = 1 ∧
      (runSteps (2 * d + 1) (freshThread d)).1.remaining = 0) ∧
    (∀ t : TimerThread, t.phase = TPhase.finished → threadStep t = (t, [])) ∧
    (∀ t : TimerThread, TEvent.ended ∈ (threadStep t).2 → t.remaining = 0) ∧
    (∀ t : TimerThread, t.should_stop = true → (t.wait).1.phase = TPhase.finished) ∧
    (∀ (t : TimerThread) (n : Nat), t.phase = TPhase.finished →
      runSteps n t = (t, [])) := by
  refine ⟨fun d _ => ⟨?_, ?_⟩, threadStep_finished, threadStep_ended_remaining,
    wait_finished_of_stop, fun t n ht => runSteps_finished n t ht⟩
  · rw [naturalTrace_eq]
    rw [List.count_append]
    rw [List.count_eq_zero.mpr (downTicks_no_ended d)]
    rfl
  · rw [naturalThread_final]

/-- Claim C2 witness: the amended semantics evaluated on a concrete
duration-2 countdown, a concrete finished thread, and a concrete
stopped thread. -/
theorem C2_expiry_semantics_witness :
    (naturalTrace 2).count TEvent.ended = 1 ∧
    threadStep { duration := 2, remaining := 0, running := true,
                 should_stop := false, phase := TPhase.finished }
      = ({ duration := 2, remaining := 0, running := true,
           should_stop := false, phase := TPhase.finished }, []) ∧
    { duration := 2, remaining := 0, running := true, should_stop := false,
      phase := TPhase.loopHead : TimerThread }.remaining = 0 ∧
    (((freshThread 2).stop).wait).1.phase = TPhase.finished ∧
    runSteps 5 { duration := 2, remaining := 0, running := true,
                 should_stop := false, phase := TPhase.finished }
      = ({ duration := 2, remaining := 0, running := true,
           should_stop := false, phase := TPhase.finished }, []) := by
  obtain ⟨h1, h2, h3, h4, h5⟩ := C2_expiry_semantics
  exact ⟨(h1 2 (by decide)).1, h2 _ rfl, h3 _ (by decide),
    h4 (freshThread 2).stop rfl, h5 _ 5 rfl⟩

/-- Claim C3 (code bug): Work countdown started; the thread posts
`tick 1500` and sleeps; `pause_timer` lands during the sleep; the
thread completes the in-flight second (decrementing 1500 to 1499),
observes `running == False` and exits its `run` loop for good;
`resume_timer` then merely sets the flag on the finished thread.  The
result: `remaining` fell to 1499 despite the pause, the controller is
effectively Idle, and any number of further background steps does
nothing — ticking never resumes and `timer_ended` never fires, against
both the spec and the code's own pause/resume naming. -/
theorem C3_pause_resume_bug :
    (runOps initState pauseSchedule).timer_thread
      = some { duration := 1500, remaining := 1499, running := true,
               should_stop := false, phase := TPhase.finished } ∧
    (runOps initState pauseSchedule).queue = [TEvent.tick 1500] ∧
    phaseOf (runOps initState pauseSchedule) = Phase.idle ∧
    (∀ k : Nat, runOps (runOps initState pauseSchedule)
        (List.replicate k Op.opThreadStep) = runOps initState pauseSchedule) := by
  refine ⟨by decide, by decide, by decide, ?_⟩
  exact runOps_threadSteps_finished _
    { duration := 1500, remaining := 1499, running := true,
      should_stop := false, phase := TPhase.finished } (by decide) rfl

/-- Claim C4 counterexample: the very first tick of a duration-2
countdown reports 2 (the pre-decrement value, emitted immediately at
the top of the loop), not `durationSeconds - 1 = 1` as the claim
states. -/
theorem C4_first_tick_cex :
    (naturalTrace 2).head? = some (TEvent.tick 2) ∧
    ¬ (naturalTrace 2).head? = some (TEvent.tick 1) := by
  decide

/-- Claim C4 amended: the tick event is emitted once per second at the
top of each loop iteration carrying the current (pre-decrement)
`remaining` value, so a full run of duration `d` emits the values
`d, d-1, ..., 1` followed by the single `ended` event; in particular
the first tick, emitted immediately when the countdown starts, reports
`d` (not `d - 1`). -/
theorem C4_tick_values (d : Nat) (h : 0 < d) :
    naturalTrace d = downTicks d ++ [TEvent.ended] ∧
    (naturalTrace d).head? = some (TEvent.tick d) ∧
    (naturalTrace d).length = d + 1 := by
  refine ⟨naturalTrace_eq d, ?_, ?_⟩
  · rw [naturalTrace_eq]
    cases d with
    | zero => cases h
    | succ n => rfl
  · rw [naturalTrace_eq]
    simp [downTicks_length]

/-- Claim C4 witness: the amended tick law at duration 3. -/
theorem C4_tick_values_witness :
    naturalTrace 3 = downTicks 3 ++ [TEvent.ended] ∧
    (naturalTrace 3).head? = some (TEvent.tick 3) ∧
    (naturalTrace 3).length = 3 + 1 :=
  C4_tick_values 3 (by decide)

/-- Claim C5: while a live countdown exists (phase Running or Paused),
`start_timer` produces exactly the state produced by `reset_timer`
followed by `start_timer` — the source's else-branch literally performs
that call sequence — and the resulting thread is a freshly spawned one
at the full duration of the current session, never the old thread
resumed. -/
theorem C5_start_equals_reset_start (s : SysState)
    (h : phaseOf s = Phase.running ∨ phaseOf s = Phase.paused) :
    start_timer s = start_timer (reset_timer s) ∧
    (start_timer s).timer_thread
      = some (freshThread (duration s.current_session)) := by
  have hn : noLiveThread s = false := noLiveThread_false_of_phase s h
  have hr : noLiveThread (reset_timer s) = true := noLiveThread_reset s
  constructor
  · show start_timerF 2 s = start_timerF 2 (reset_timer s)
    rw [start_timerF_live 1 s hn]
    rw [start_timerF_spawn 0 _ hr, start_timerF_spawn 1 _ hr]
  · show (start_timerF 2 s).timer_thread = _
    rw [start_timerF_live 1 s hn, start_timerF_spawn 0 _ hr]
    show some (freshThread (duration (reset_timer s).current_session)) = _
    rw [reset_session]

/-- Claim C5 witness: the equivalence evaluated at the concrete Running
state reached by a single `start_timer` from the fresh controller. -/
theorem C5_start_equals_reset_start_witness :
    start_timer (runOps initState [Op.opStart])
      = start_timer (reset_timer (runOps initState [Op.opStart])) ∧
    (start_timer (runOps initState [Op.opStart])).timer_thread
      = some (freshThread
          (duration (runOps initState [Op.opStart]).current_session)) :=
  C5_start_equals_reset_start (runOps initState [Op.opStart]) (Or.inl (by decide))

/-- Claim C6: from a Running or Paused state, `reset_timer` leaves the
controller Idle with `remaining_time` equal to the full duration of the
current session, does not rotate the session type, and does not change
`pomodoro_count`. -/
theorem C6_reset_frame (s : SysState)
    (_h : phaseOf s = Phase.running ∨ phaseOf s = Phase.paused) :
    phaseOf (reset_timer s) = Phase.idle ∧
    (reset_timer s).remaining_time = duration s.current_session ∧
    (reset_timer s).current_session = s.current_session ∧
    (reset_timer s).pomodoro_count = s.pomodoro_count :=
  ⟨phaseOf_idle_of_noLive _ (noLiveThread_reset s), reset_remaining s,
   reset_session s, reset_count s⟩

/-- Claim C6 witness: the reset frame conditions at the concrete Paused
state reached by `start_timer` then a thread step then `pause_timer`. -/
theorem C6_reset_frame_witness :
    phaseOf (reset_timer (runOps initState
      [Op.opStart, Op.opThreadStep, Op.opPause])) = Phase.idle ∧
    (reset_timer (runOps initState [Op.opStart, Op.opThreadStep, Op.opPause])).remaining_time
      = duration (runOps initState
          [Op.opStart, Op.opThreadStep, Op.opPause]).current_session ∧
    (reset_timer (runOps initState [Op.opStart, Op.opThreadStep, Op.opPause])).current_session
      = (runOps initState [Op.opStart, Op.opThreadStep, Op.opPause]).current_session ∧
    (reset_timer (runOps initState [Op.opStart, Op.opThreadStep, Op.opPause])).pomodoro_count
      = (runOps initState [Op.opStart, Op.opThreadStep, Op.opPause]).pomodoro_count :=
  C6_reset_frame (runOps initState [Op.opStart, Op.opThreadStep, Op.opPause])
    (Or.inr (by decide))

/-- Claim C7 counterexample: with a Running Work countdown,
`set_session` is neither rejected nor deferred — it immediately changes
the controller's session type to Short Break and `remaining_time` to
300 while the countdown thread is still alive. -/
theorem C7_set_session_while_running_cex :
    phaseOf (runOps initState [Op.opStart]) = Phase.running ∧
    (runOps initState [Op.opStart]).current_session = Session.work ∧
    (set_session Session.shortBreak (runOps initState [Op.opStart])).current_session
      = Session.shortBreak ∧
    (set_session Session.shortBreak (runOps initState [Op.opStart])).remaining_time
      = SHORT_BREAK := by
  decide

/-- Claim C7 amended: `set_session` takes effect in every phase: it
always sets the session type and re-arms `remaining_time` to the new
duration, never changes `pomodoro_count`, and never touches the thread
object itself (the live thread's internal counter is unaffected). -/
theorem C7_set_session_unconditional (t : Session) (s : SysState) :
    (set_session t s).current_session = t ∧
    (set_session t s).remaining_time = duration t ∧
    (set_session t s).pomodoro_count = s.pomodoro_count ∧
    (set_session t s).timer_thread = s.timer_thread :=
  ⟨rfl, rfl, rfl, rfl⟩

/-- Claim C8: each expiry delivery dispatches exactly one notification,
chosen from the pre-rotation session type: the take-a-break pair for a
Work completion and the back-to-work pair for a break completion. -/
theorem C8_notification (s : SysState) :
    (timer_ended s).2 = [notificationFor s.current_session] ∧
    (timer_ended s).2.length = 1 ∧
    (s.current_session = Session.work →
      (timer_ended s).2 = [("Pomodoro Session Complete!",
        "Time for a break! Click here to start your break session.")]) ∧
    (¬ s.current_session = Session.work →
      (timer_ended s).2 = [("Break Time Over!",
        "Break session ended. Time to get back to work!")]) := by
  refine ⟨rfl, rfl, fun hw => ?_, fun hb => ?_⟩
  · show [notificationFor s.current_session] = _
    rw [hw]
    rfl
  · show [notificationFor s.current_session] = _
    unfold notificationFor
    rw [if_neg hb]

/-- Claim C8 witness: the notification law at a Work state and at a
Short Break state. -/
theorem C8_notification_witness :
    (timer_ended initState).2 = [("Pomodoro Session Complete!",
      "Time for a break! Click here to start your break session.")] ∧
    (timer_ended (set_session Session.shortBreak initState)).2
      = [("Break Time Over!",
          "Break session ended. Time to get back to work!")] :=
  ⟨(C8_notification initState).2.2.1 rfl,
   (C8_notification (set_session Session.shortBreak initState)).2.2.2 (by decide)⟩

/-- Claim C9 counterexample: `start` (Work, thread counts from 1500),
the thread posts `tick 1500`, the user switches to Short Break
(`remaining_time := 300`), and the stale tick is then delivered — the
reachable final state has `remaining_time = 1500`, strictly above
`duration shortBreak = 300`, violating the claimed invariant. -/
theorem C9_invariant_cex :
    (runOps initState staleTickSchedule).current_session = Session.shortBreak ∧
    duration (runOps initState staleTickSchedule).current_session
      < (runOps initState staleTickSchedule).remaining_time := by
  decide

/-- Claim C9 amended: in every state reachable from the initial state
by any sequence of operations and event deliveries, `remaining_time`
lies in `[0, POMODORO_DURATION]` (the Work duration, the largest of the
three); the tighter per-session bound `duration (current_session)`
fails only when `set_session` races a live countdown's queued ticks. -/
theorem C9_remaining_bound (ops : List Op) :
    0 ≤ (runOps initState ops).remaining_time ∧
    (runOps initState ops).remaining_time ≤ POMODORO_DURATION :=
  ⟨Nat.zero_le _, (Inv_runOps ops initState Inv_init).1⟩

/-- Claim C10: `pomodoro_count` is never modified by `start_timer`,
`pause_timer`, `resume_timer`, `reset_timer` or `set_session`; its only
mutation anywhere is the increment by exactly 1 in the expiry handler
when the completed session is Work; consequently it is monotone
non-decreasing along every operation sequence. -/
theorem C10_count_monotone :
    (∀ s : SysState, (start_timer s).pomodoro_count = s.pomodoro_count) ∧
    (∀ s : SysState, (pause_timer s).pomodoro_count = s.pomodoro_count) ∧
    (∀ s : SysState, (resume_timer s).pomodoro_count = s.pomodoro_count) ∧
    (∀ s : SysState, (reset_timer s).pomodoro_count = s.pomodoro_count) ∧
    (∀ (t : Session) (s : SysState),
      (set_session t s).pomodoro_count = s.pomodoro_count) ∧
    (∀ s : SysState, s.current_session = Session.work →
      (timer_ended s).1.pomodoro_count = s.pomodoro_count + 1) ∧
    (∀ s : SysState, ¬ s.current_session = Session.work →
      (timer_ended s).1.pomodoro_count = s.pomodoro_count) ∧
    (∀ (s : SysState) (ops : List Op),
      s.pomodoro_count ≤ (runOps s ops).pomodoro_count) :=
  ⟨start_count, pause_count, resume_count, reset_count, fun _ _ => rfl,
   timer_ended_count_work, timer_ended_count_break,
   fun s ops => runOps_count_le ops s⟩

/-- Claim C10 witness: the counter laws evaluated at the fresh
controller and at a short-break state. -/
theorem C10_count_monotone_witness :
    (timer_ended initState).1.pomodoro_count = initState.pomodoro_count + 1 ∧
    (timer_ended (set_session Session.shortBreak initState)).1.pomodoro_count
      = (set_session Session.shortBreak initState).pomodoro_count ∧
    (start_timer initState).pomodoro_count = initState.pomodoro_count := by
  obtain ⟨hs, _, _, _, _, hw, hb, _⟩ := C10_count_monotone
  exact ⟨hw initState rfl,
    hb (set_session Session.shortBreak initState) (by decide), hs initState⟩

end Pomodorino
